import Mathlib

/-!
Shallow embedding of the review service in `app/routers/reviews.py`:
the persisted state (Review and Product rows plus the autoincrement
counter for review primary keys), the four handlers
(`update_product_rating`, `get_all_reviews`, `create_review`,
`delete_review`), and a step relation over sequences of successful
create/delete operations, together with proofs of the specified
invariants and error behaviour.
-/

namespace ECommerce

/-- A Review row: `id` is the primary key, `grade` the numeric score,
`is_active` the soft-delete flag. -/
structure Review where
  id : Nat
  user_id : Nat
  product_id : Nat
  comment : String
  grade : Int
  is_active : Bool
deriving DecidableEq

/-- A Product row; `rating` is the derived 2-decimal average grade. -/
structure Product where
  id : Nat
  rating : Rat
  is_active : Bool
deriving DecidableEq

/-- The persisted state: the Review table, the Product table, and the
autoincrement counter the store uses to assign fresh review primary keys. -/
structure DbState where
  reviews : List Review
  products : List Product
  nextReviewId : Nat
deriving DecidableEq

/-- Round-half-even to the nearest integer, as Python's builtin `round`,
computed on the numerator and denominator (`den > 0`): with `f = ⌊q⌋` and
remainder `r = num - f * den`, the fractional part `r / den` is compared
with `1/2` by comparing `2 * r` with `den`. -/
def roundHalfEven (q : Rat) : Int :=
  if 2 * (q.num - q.num.fdiv q.den * q.den) < (q.den : Int) then q.num.fdiv q.den
  else if (q.den : Int) < 2 * (q.num - q.num.fdiv q.den * q.den) then q.num.fdiv q.den + 1
  else if q.num.fdiv q.den % 2 = 0 then q.num.fdiv q.den else q.num.fdiv q.den + 1

/-- Python's `round(x, 2)`: round to two decimal places, half to even. -/
def round2 (q : Rat) : Rat := mkRat (roundHalfEven (mkRat (q.num * 100) q.den)) 100

/-- The SQL `SELECT avg(grade) WHERE product_id = pid AND is_active` of
`update_product_rating`, with `scalar() or 0.0` mapping the empty
aggregate (NULL) to 0. -/
def avgOf (l : List Review) (pid : Nat) : Rat :=
  let gs := (l.filter (fun r => r.product_id == pid && r.is_active)).map
    (fun r => r.grade)
  if gs.length = 0 then 0 else mkRat gs.sum gs.length

/-- `update_product_rating`: averages the grades of the active reviews of
`pid`, looks the product up by primary key (`db.get`, ignoring
`is_active`), and if found overwrites its rating with the rounded
average; if the product is missing it silently does nothing. -/
def update_product_rating (s : DbState) (pid : Nat) : DbState :=
  match s.products.find? (fun p => p.id == pid) with
  | none => s
  | some _ =>
    { s with products :=
        s.products.map fun p =>
          if p.id == pid then { p with rating := round2 (avgOf s.reviews pid) } else p }

/-- `GET /reviews/`: all Review rows with `is_active = true`. -/
def get_all_reviews (s : DbState) : List Review :=
  s.reviews.filter (fun r => r.is_active)

/-- The domain errors raised by the handlers. -/
inductive ApiError where
  | notFound
  | conflict
deriving DecidableEq

/-- The HTTP status attached to each domain error. -/
def ApiError.statusCode : ApiError → Nat
  | .notFound => 404
  | .conflict => 400

/-- `POST /reviews/` by buyer `uid`: 404 if no active product with id
`pid`; 400 if the caller already has an active review for `pid`;
otherwise inserts a fresh active review (primary key from the
autoincrement counter), then recomputes the product rating.  The state
component of the result is the session state when the handler returns
(unchanged on the error paths, which raise before any write). -/
def create_review (s : DbState) (uid : Nat) (pid : Nat) (c : String) (g : Int) :
    Except ApiError Review × DbState :=
  match s.products.find? (fun p => p.id == pid && p.is_active) with
  | none => (Except.error ApiError.notFound, s)
  | some _ =>
    match s.reviews.find? (fun r => r.user_id == uid && r.product_id == pid && r.is_active) with
    | some _ => (Except.error ApiError.conflict, s)
    | none =>
      (Except.ok (Review.mk s.nextReviewId uid pid c g true),
        update_product_rating
          (DbState.mk (s.reviews ++ [Review.mk s.nextReviewId uid pid c g true])
            s.products (s.nextReviewId + 1)) pid)

/-- `DELETE /reviews/{rid}` by an admin: 404 unless an active review
with id `rid` exists; otherwise sets `is_active = false` on rows with
id `rid` (a targeted UPDATE), then recomputes the rating of the
product the review pointed to. -/
def delete_review (s : DbState) (rid : Nat) : Except ApiError String × DbState :=
  match s.reviews.find? (fun r => r.id == rid && r.is_active) with
  | none => (Except.error ApiError.notFound, s)
  | some review =>
    (Except.ok "Review deleted",
      update_product_rating
        (DbState.mk
          (s.reviews.map (fun r => if r.id == rid then { r with is_active := false } else r))
          s.products s.nextReviewId)
        review.product_id)

/-- A mutating request: a buyer's create or an admin's delete. -/
inductive Op where
  | create (uid : Nat) (pid : Nat) (c : String) (g : Int)
  | delete (rid : Nat)
deriving DecidableEq

/-- One successful operation: `none` when the handler raises. -/
def applyOp (s : DbState) : Op → Option DbState
  | .create uid pid c g =>
    match create_review s uid pid c g with
    | (Except.ok _, s') => some s'
    | (Except.error _, _) => none
  | .delete rid =>
    match delete_review s rid with
    | (Except.ok _, s') => some s'
    | (Except.error _, _) => none

/-- Run a sequence of operations, requiring every one to succeed. -/
def runOps (s : DbState) : List Op → Option DbState
  | [] => some s
  | op :: ops =>
    match applyOp s op with
    | none => none
    | some s' => runOps s' ops

/-- The rating each product should carry: the rounded average grade over
its active reviews, 0 when there are none. -/
def expectedRating (s : DbState) (pid : Nat) : Rat := round2 (avgOf s.reviews pid)

/-- Every product's stored rating matches the rounded average grade of
its active reviews (0 when none). -/
def ratingInvariant (s : DbState) : Prop :=
  ∀ p ∈ s.products, p.rating = expectedRating s p.id

/-- Review primary keys are pairwise distinct and below the
autoincrement counter, as the store guarantees. -/
def idsOk (s : DbState) : Prop :=
  (s.reviews.map (fun r => r.id)).Nodup ∧ ∀ r ∈ s.reviews, r.id < s.nextReviewId

/-- At most one active review per (user, product) pair. -/
def uniqueActive (s : DbState) : Prop :=
  s.reviews.Pairwise (fun a b => a.is_active = true → b.is_active = true →
    ¬(a.user_id = b.user_id ∧ a.product_id = b.product_id))

/-- The stored rating of product `pid`, when the product exists. -/
def ratingOf (s : DbState) (pid : Nat) : Option Rat :=
  (s.products.find? (fun p => p.id == pid)).map (fun p => p.rating)

instance decRatingInvariant (s : DbState) : Decidable (ratingInvariant s) := by
  unfold ratingInvariant; infer_instance

instance decIdsOk (s : DbState) : Decidable (idsOk s) := by
  unfold idsOk; infer_instance

instance decUniqueActive (s : DbState) : Decidable (uniqueActive s) := by
  unfold uniqueActive; infer_instance

/-- A state with an active review by user 7 on product 1, the product
itself being inactive. -/
def cexState : DbState := ⟨[⟨1, 7, 1, "old", 5, true⟩], [⟨1, 0, false⟩], 2⟩

/-- A state with an active product 1 already reviewed by user 7. -/
def dupState : DbState := ⟨[⟨1, 7, 1, "old", 5, true⟩], [⟨1, 5, true⟩], 2⟩

/-- A state with a single active product and no reviews. -/
def prodOnlyState : DbState := ⟨[], [⟨1, 0, true⟩], 1⟩

/-- The empty database. -/
def emptyState : DbState := ⟨[], [], 1⟩

/-- A state with an inactive review on an active product. -/
def inactiveReviewState : DbState := ⟨[⟨1, 7, 1, "x", 5, false⟩], [⟨1, 0, true⟩], 2⟩

/-- The operation sequence of the spec's rating scenario. -/
def scenarioOps : List Op := [Op.create 10 1 "good" 4, Op.create 11 1 "great" 5, Op.delete 1]

/-- The state reached by the scenario. -/
def scenarioResult : DbState := (runOps prodOnlyState scenarioOps).getD prodOnlyState

/-- The state reached by one successful delete from `dupState`. -/
def deleteResult : DbState := (runOps dupState [Op.delete 1]).getD dupState

/-- The state reached by one successful create from `inactiveReviewState`. -/
def createResult : DbState := (applyOp inactiveReviewState (Op.create 8 1 "y" 3)).getD inactiveReviewState

end ECommerce

deriving instance DecidableEq for Except

namespace ECommerce

theorem upr_reviews (s : DbState) (pid : Nat) :
    (update_product_rating s pid).reviews = s.reviews := by
  unfold update_product_rating
  cases s.products.find? (fun p => p.id == pid) <;> rfl

theorem upr_nextId (s : DbState) (pid : Nat) :
    (update_product_rating s pid).nextReviewId = s.nextReviewId := by
  unfold update_product_rating
  cases s.products.find? (fun p => p.id == pid) <;> rfl

theorem set_inactive_self (r : Review) (h : r.is_active = false) :
    { r with is_active := false } = r := by
  cases r
  simp_all

theorem avgOf_congr (l₁ l₂ : List Review) (pid : Nat)
    (h : l₁.filter (fun r => r.product_id == pid && r.is_active) =
         l₂.filter (fun r => r.product_id == pid && r.is_active)) :
    avgOf l₁ pid = avgOf l₂ pid := by
  unfold avgOf
  rw [h]

theorem filter_append_single (l : List Review) (x : Review) (P : Review → Bool)
    (hx : P x = false) : (l ++ [x]).filter P = l.filter P := by
  simp [List.filter_append, hx]

theorem filter_map_invariant (f : Review → Review) (P : Review → Bool) (l : List Review)
    (h : ∀ r ∈ l, P (f r) = P r ∧ (P r = true → f r = r)) :
    (l.map f).filter P = l.filter P := by
  induction l with
  | nil => rfl
  | cons a t ih =>
    have ha := h a (List.mem_cons_self a t)
    have ht := ih (fun r hr => h r (List.mem_cons_of_mem a hr))
    simp only [List.map_cons, List.filter_cons, ha.1]
    cases hPa : P a with
    | false => exact ht
    | true => rw [ha.2 hPa, ht]

theorem upr_products_sound (s : DbState) (pid : Nat)
    (h : ∀ p ∈ s.products, ¬ p.id = pid → p.rating = round2 (avgOf s.reviews p.id)) :
    ∀ p ∈ (update_product_rating s pid).products,
      p.rating = round2 (avgOf s.reviews p.id) := by
  unfold update_product_rating
  cases hf : s.products.find? (fun p => p.id == pid) with
  | none =>
    intro p hp
    by_cases hpid : p.id = pid
    · exfalso
      have := List.find?_eq_none.mp hf p hp
      simp [hpid] at this
    · exact h p hp hpid
  | some p0 =>
    intro p' hp'
    simp only [List.mem_map] at hp'
    obtain ⟨p, hp, rfl⟩ := hp'
    by_cases hpid : p.id = pid
    · simp [hpid]
    · simp only [hpid, beq_iff_eq, if_neg hpid]
      exact h p hp hpid

theorem upr_ratingInvariant (s : DbState) (pid : Nat)
    (h : ∀ p ∈ s.products, ¬ p.id = pid → p.rating = round2 (avgOf s.reviews p.id)) :
    ratingInvariant (update_product_rating s pid) := by
  unfold ratingInvariant expectedRating
  intro p hp
  rw [upr_reviews]
  exact upr_products_sound s pid h p hp

theorem create_review_ok_inv (s : DbState) (uid pid : Nat) (c : String) (g : Int)
    (r : Review) (s' : DbState)
    (h : create_review s uid pid c g = (Except.ok r, s')) :
    s.reviews.find? (fun x => x.user_id == uid && x.product_id == pid && x.is_active) = none ∧
    r = Review.mk s.nextReviewId uid pid c g true ∧
    s' = update_product_rating
      (DbState.mk (s.reviews ++ [Review.mk s.nextReviewId uid pid c g true]) s.products
        (s.nextReviewId + 1)) pid := by
  unfold create_review at h
  cases hp : s.products.find? (fun p => p.id == pid && p.is_active) with
  | none => rw [hp] at h; exact absurd h (by simp)
  | some p0 =>
    rw [hp] at h
    cases hr : s.reviews.find? (fun x => x.user_id == uid && x.product_id == pid && x.is_active) with
    | some x => rw [hr] at h; exact absurd h (by simp)
    | none =>
      rw [hr] at h
      simp only [Prod.mk.injEq, Except.ok.injEq] at h
      exact ⟨rfl, h.1.symm, h.2.symm⟩

theorem delete_review_ok_inv (s : DbState) (rid : Nat) (m : String) (s' : DbState)
    (h : delete_review s rid = (Except.ok m, s')) :
    ∃ review, s.reviews.find? (fun x => x.id == rid && x.is_active) = some review ∧
      s' = update_product_rating
        (DbState.mk
          (s.reviews.map fun x => if x.id == rid then { x with is_active := false } else x)
          s.products s.nextReviewId)
        review.product_id := by
  unfold delete_review at h
  cases hr : s.reviews.find? (fun x => x.id == rid && x.is_active) with
  | none => rw [hr] at h; exact absurd h (by simp)
  | some review =>
    rw [hr] at h
    simp only [Prod.mk.injEq, Except.ok.injEq] at h
    exact ⟨review, rfl, h.2.symm⟩

theorem applyOp_create_inv (s : DbState) (uid pid : Nat) (c : String) (g : Int)
    (s' : DbState) (h : applyOp s (Op.create uid pid c g) = some s') :
    ∃ r, create_review s uid pid c g = (Except.ok r, s') := by
  simp only [applyOp] at h
  cases hc : create_review s uid pid c g with
  | mk fst snd =>
    rw [hc] at h
    cases fst with
    | ok r =>
      simp only [Option.some.injEq] at h
      exact ⟨r, by rw [h]⟩
    | error e => simp at h

theorem applyOp_delete_inv (s : DbState) (rid : Nat) (s' : DbState)
    (h : applyOp s (Op.delete rid) = some s') :
    ∃ m, delete_review s rid = (Except.ok m, s') := by
  simp only [applyOp] at h
  cases hc : delete_review s rid with
  | mk fst snd =>
    rw [hc] at h
    cases fst with
    | ok m =>
      simp only [Option.some.injEq] at h
      exact ⟨m, by rw [h]⟩
    | error e => simp at h

end ECommerce

namespace ECommerce

theorem deactivate_id (rid : Nat) (r : Review) :
    ((if r.id == rid then { r with is_active := false } else r).id) = r.id := by
  by_cases h : r.id = rid <;> simp [h]

theorem deactivate_active (rid : Nat) (r : Review)
    (h : (if r.id == rid then { r with is_active := false } else r).is_active = true) :
    (if r.id == rid then { r with is_active := false } else r) = r := by
  by_cases hr : r.id = rid
  · simp [hr] at h
  · simp [hr]

theorem deactivate_eq (rid : Nat) (r : Review) (h : r.id = rid) :
    (if r.id == rid then { r with is_active := false } else r) =
      { r with is_active := false } := by
  simp [h]

theorem deactivate_ne (rid : Nat) (r : Review) (h : ¬ r.id = rid) :
    (if r.id == rid then { r with is_active := false } else r) = r := by
  simp [h]

theorem step_preserves_good (s s' : DbState) (op : Op)
    (hid : idsOk s) (hinv : ratingInvariant s) (h : applyOp s op = some s') :
    idsOk s' ∧ ratingInvariant s' := by
  cases op with
  | create uid pid c g =>
    obtain ⟨r, hc⟩ := applyOp_create_inv s uid pid c g s' h
    obtain ⟨hfind, hr, hs'⟩ := create_review_ok_inv s uid pid c g r s' hc
    subst hs'
    constructor
    · constructor
      · rw [upr_reviews]
        simp only [List.map_append, List.map_cons, List.map_nil]
        rw [List.nodup_append]
        refine ⟨hid.1, List.nodup_singleton _, ?_⟩
        intro a ha hb
        simp only [List.mem_singleton] at hb
        subst hb
        obtain ⟨x, hx, hxa⟩ := List.mem_map.mp ha
        have := hid.2 x hx
        omega
      · rw [upr_reviews, upr_nextId]
        intro x hx
        rcases List.mem_append.mp hx with hx | hx
        · exact Nat.lt_succ_of_lt (hid.2 x hx)
        · simp only [List.mem_singleton] at hx
          subst hx
          exact Nat.lt_succ_self _
    · apply upr_ratingInvariant
      intro p hp hpid
      have hbase := hinv p hp
      unfold expectedRating at hbase
      rw [hbase]
      apply congrArg
      apply avgOf_congr
      symm
      apply filter_append_single
      simp only [Bool.and_eq_false_imp, beq_iff_eq]
      intro hcontra
      exact absurd hcontra.symm hpid
  | delete rid =>
    obtain ⟨m, hc⟩ := applyOp_delete_inv s rid s' h
    obtain ⟨review, hfind, hs'⟩ := delete_review_ok_inv s rid m s' hc
    subst hs'
    have hmem := List.mem_of_find?_eq_some hfind
    have hpred := List.find?_some hfind
    simp only [Bool.and_eq_true, beq_iff_eq] at hpred
    constructor
    · constructor
      · rw [upr_reviews]
        have hsame : ((s.reviews.map fun x =>
            if x.id == rid then { x with is_active := false } else x).map
              (fun r => r.id)) = s.reviews.map (fun r => r.id) := by
          rw [List.map_map]
          apply List.map_congr_left
          intro a _
          exact deactivate_id rid a
        rw [hsame]
        exact hid.1
      · rw [upr_reviews, upr_nextId]
        intro x hx
        obtain ⟨a, ha, rfl⟩ := List.mem_map.mp hx
        have hida := deactivate_id rid a
        rw [hida]
        exact hid.2 a ha
    · apply upr_ratingInvariant
      intro p hp hpid
      have hbase := hinv p hp
      unfold expectedRating at hbase
      rw [hbase]
      apply congrArg
      apply avgOf_congr
      symm
      apply filter_map_invariant
      intro x hx
      by_cases hxid : x.id = rid
      · have hxr : x = review :=
          List.inj_on_of_nodup_map hid.1 hx hmem (by rw [hxid, hpred.1])
        have hxp : x.product_id = review.product_id := by rw [hxr]
        have hnp : ¬ x.product_id = p.id := by
          intro hcontra
          exact hpid (by rw [← hcontra, hxp])
        constructor
        · simp only [hxid, beq_self_eq_true, if_true]
          simp [hnp]
        · intro hPx
          exfalso
          simp only [Bool.and_eq_true, beq_iff_eq] at hPx
          exact hnp hPx.1
      · simp [hxid]

end ECommerce

namespace ECommerce

theorem step_preserves_unique (s s' : DbState) (op : Op)
    (hu : uniqueActive s) (h : applyOp s op = some s') : uniqueActive s' := by
  cases op with
  | create uid pid c g =>
    obtain ⟨r, hc⟩ := applyOp_create_inv s uid pid c g s' h
    obtain ⟨hfind, hr, hs'⟩ := create_review_ok_inv s uid pid c g r s' hc
    subst hs'
    unfold uniqueActive
    rw [upr_reviews]
    rw [List.pairwise_append]
    refine ⟨hu, List.pairwise_singleton .., ?_⟩
    intro a ha b hb
    simp only [List.mem_singleton] at hb
    subst hb
    intro haA hbA hpair
    have hno := List.find?_eq_none.mp hfind a ha
    simp only [Bool.and_eq_true, beq_iff_eq] at hno
    exact hno ⟨⟨hpair.1, hpair.2⟩, haA⟩
  | delete rid =>
    obtain ⟨m, hc⟩ := applyOp_delete_inv s rid s' h
    obtain ⟨review, hfind, hs'⟩ := delete_review_ok_inv s rid m s' hc
    subst hs'
    unfold uniqueActive
    rw [upr_reviews]
    rw [List.pairwise_map]
    apply List.Pairwise.imp ?_ hu
    intro a b hab hfa hfb hpair
    have ha := deactivate_active rid a hfa
    have hb := deactivate_active rid b hfb
    rw [ha] at hfa hpair
    rw [hb] at hfb hpair
    exact hab hfa hfb hpair

theorem runOps_preserves_good (ops : List Op) :
    ∀ s s' : DbState, idsOk s → ratingInvariant s → runOps s ops = some s' →
      idsOk s' ∧ ratingInvariant s' := by
  induction ops with
  | nil =>
    intro s s' h1 h2 h
    simp only [runOps, Option.some.injEq] at h
    subst h
    exact ⟨h1, h2⟩
  | cons op ops ih =>
    intro s s' h1 h2 h
    unfold runOps at h
    cases ha : applyOp s op with
    | none => rw [ha] at h; simp at h
    | some t =>
      rw [ha] at h
      obtain ⟨g1, g2⟩ := step_preserves_good s t op h1 h2 ha
      exact ih t s' g1 g2 h

theorem runOps_preserves_unique (ops : List Op) :
    ∀ s s' : DbState, uniqueActive s → runOps s ops = some s' → uniqueActive s' := by
  induction ops with
  | nil =>
    intro s s' h1 h
    simp only [runOps, Option.some.injEq] at h
    subst h
    exact h1
  | cons op ops ih =>
    intro s s' h1 h
    unfold runOps at h
    cases ha : applyOp s op with
    | none => rw [ha] at h; simp at h
    | some t =>
      rw [ha] at h
      exact ih t s' (step_preserves_unique s t op h1 ha) h

end ECommerce

namespace ECommerce

/-- Claim C1: for every product, after any sequence of successful
create_review and delete_review operations starting from a state whose
ratings already satisfy the invariant (and whose review primary keys
are well formed, as the store guarantees), every product's rating field
equals the half-even 2-decimal rounding of the mean grade over its
active reviews, or 0 if it has none. -/
theorem rating_invariant_preserved (s s' : DbState) (ops : List Op)
    (hids : idsOk s) (hinv : ratingInvariant s) (h : runOps s ops = some s') :
    ratingInvariant s' :=
  (runOps_preserves_good ops s s' hids hinv h).2

/-- Witness for C1: running the scenario operations from a fresh product
state yields a state still satisfying the rating invariant. -/
theorem rating_invariant_preserved_witness :
    runOps prodOnlyState scenarioOps = some scenarioResult ∧ ratingInvariant scenarioResult :=
  ⟨by decide,
    rating_invariant_preserved prodOnlyState scenarioResult scenarioOps
      (by decide) (by decide) (by decide)⟩

/-- Claim C2 counterexample: user 7 holds an active review of product 1,
yet create_review for that product fails with NotFound (the product is
inactive and that check runs first), not with Conflict as the claim
states. -/
theorem create_review_conflict_counterexample :
    (∃ r ∈ cexState.reviews, r.user_id = 7 ∧ r.product_id = 1 ∧ r.is_active = true) ∧
    (create_review cexState 7 1 "again" 4).1 ≠ Except.error ApiError.conflict ∧
    (create_review cexState 7 1 "again" 4).1 = Except.error ApiError.notFound := by
  decide

/-- Claim C2 (amended): when the target product exists and is active, a
caller who already has an active review for it gets Conflict (HTTP 400)
and no review is inserted (the state is unchanged). -/
theorem create_review_duplicate_conflict (s : DbState) (uid pid : Nat) (c : String) (g : Int)
    (hp : ∃ p ∈ s.products, p.id = pid ∧ p.is_active = true)
    (hr : ∃ r ∈ s.reviews, r.user_id = uid ∧ r.product_id = pid ∧ r.is_active = true) :
    (create_review s uid pid c g).1 = Except.error ApiError.conflict ∧
    (create_review s uid pid c g).2 = s ∧ ApiError.conflict.statusCode = 400 := by
  unfold create_review
  cases hfp : s.products.find? (fun p => p.id == pid && p.is_active) with
  | none =>
    exfalso
    obtain ⟨p, hpmem, h1, h2⟩ := hp
    have := List.find?_eq_none.mp hfp p hpmem
    simp [h1, h2] at this
  | some p0 =>
    cases hfr : s.reviews.find? (fun x => x.user_id == uid && x.product_id == pid && x.is_active) with
    | none =>
      exfalso
      obtain ⟨r, hrmem, h1, h2, h3⟩ := hr
      have := List.find?_eq_none.mp hfr r hrmem
      simp [h1, h2, h3] at this
    | some x => exact ⟨rfl, rfl, rfl⟩

/-- Witness for the amended C2: with product 1 active and already
reviewed by user 7, a second review by user 7 yields Conflict. -/
theorem create_review_duplicate_conflict_witness :
    (create_review dupState 7 1 "again" 4).1 = Except.error ApiError.conflict ∧
    (create_review dupState 7 1 "again" 4).2 = dupState ∧
    ApiError.conflict.statusCode = 400 :=
  create_review_duplicate_conflict dupState 7 1 "again" 4 (by decide) (by decide)

/-- Claim C3: starting from a state with at most one active review per
(user, product) pair, every state reachable by successful create/delete
operations still has at most one active review per pair. -/
theorem unique_active_preserved (s s' : DbState) (ops : List Op)
    (hu : uniqueActive s) (h : runOps s ops = some s') : uniqueActive s' :=
  runOps_preserves_unique ops s s' hu h

/-- Witness for C3: deleting the sole review of `dupState` preserves
the at-most-one-active-review invariant. -/
theorem unique_active_preserved_witness :
    runOps dupState [Op.delete 1] = some deleteResult ∧ uniqueActive deleteResult :=
  ⟨by decide, unique_active_preserved dupState deleteResult [Op.delete 1] (by decide) (by decide)⟩

/-- Claim C4: when no active product with the requested id exists
(missing or inactive), create_review fails with NotFound (HTTP 404). -/
theorem create_review_missing_product_not_found (s : DbState) (uid pid : Nat)
    (c : String) (g : Int)
    (hp : ∀ p ∈ s.products, ¬(p.id = pid ∧ p.is_active = true)) :
    (create_review s uid pid c g).1 = Except.error ApiError.notFound ∧
    ApiError.notFound.statusCode = 404 := by
  have hf : s.products.find? (fun p => p.id == pid && p.is_active) = none := by
    rw [List.find?_eq_none]
    intro x hx
    have := hp x hx
    simp only [Bool.and_eq_true, beq_iff_eq]
    exact fun hcontra => this ⟨hcontra.1, hcontra.2⟩
  unfold create_review
  rw [hf]
  exact ⟨rfl, rfl⟩

/-- Witness for C4: creating a review in the empty database fails with
NotFound. -/
theorem create_review_missing_product_not_found_witness :
    (create_review emptyState 7 1 "x" 4).1 = Except.error ApiError.notFound ∧
    ApiError.notFound.statusCode = 404 :=
  create_review_missing_product_not_found emptyState 7 1 "x" 4 (by decide)

/-- Claim C5: delete_review fails with NotFound (HTTP 404) when no
active review has the requested id; and it never removes a row - the
review list keeps its length, and each row is either untouched or, when
its id matches, merely has is_active set to false with every other
field unchanged. -/
theorem delete_review_not_found_and_soft_delete (s : DbState) (rid : Nat) :
    ((∀ r ∈ s.reviews, ¬(r.id = rid ∧ r.is_active = true)) →
      (delete_review s rid).1 = Except.error ApiError.notFound ∧
      ApiError.notFound.statusCode = 404) ∧
    (delete_review s rid).2.reviews.length = s.reviews.length ∧
    ∀ (i : Nat) (h : i < s.reviews.length) (h2 : i < (delete_review s rid).2.reviews.length),
      (delete_review s rid).2.reviews.get ⟨i, h2⟩ = s.reviews.get ⟨i, h⟩ ∨
      ((s.reviews.get ⟨i, h⟩).id = rid ∧
        (delete_review s rid).2.reviews.get ⟨i, h2⟩ =
          { s.reviews.get ⟨i, h⟩ with is_active := false }) := by
  unfold delete_review
  cases hf : s.reviews.find? (fun r => r.id == rid && r.is_active) with
  | none =>
    refine ⟨fun _ => ⟨rfl, rfl⟩, rfl, ?_⟩
    intro i h h2
    left
    rfl
  | some review =>
    dsimp only
    rw [upr_reviews]
    refine ⟨?_, ?_, ?_⟩
    · intro hno
      exfalso
      have hmem := List.mem_of_find?_eq_some hf
      have hpred := List.find?_some hf
      simp only [Bool.and_eq_true, beq_iff_eq] at hpred
      exact hno review hmem ⟨hpred.1, hpred.2⟩
    · exact List.length_map ..
    · intro i h h2
      have hget : ((s.reviews.map fun x =>
          if x.id == rid then { x with is_active := false } else x)).get ⟨i, h2⟩ =
          (fun x => if x.id == rid then { x with is_active := false } else x)
            (s.reviews.get ⟨i, h⟩) := by
        simp
      rw [hget]
      dsimp only
      by_cases hxid : (s.reviews.get ⟨i, h⟩).id = rid
      · right
        exact ⟨hxid, deactivate_eq rid _ hxid⟩
      · left
        exact deactivate_ne rid _ hxid

/-- Witness for C5: deleting review 99 from the empty database fails
with NotFound. -/
theorem delete_review_not_found_and_soft_delete_witness :
    (delete_review emptyState 99).1 = Except.error ApiError.notFound ∧
    ApiError.notFound.statusCode = 404 :=
  (delete_review_not_found_and_soft_delete emptyState 99).1 (by decide)

/-- Claim C6: when no Product row has the given id, update_product_rating
returns the state unchanged - a silent no-op. -/
theorem update_product_rating_missing_product_noop (s : DbState) (pid : Nat)
    (hp : ∀ p ∈ s.products, ¬ p.id = pid) :
    update_product_rating s pid = s := by
  have hf : s.products.find? (fun p => p.id == pid) = none := by
    rw [List.find?_eq_none]
    intro x hx
    simpa using hp x hx
  unfold update_product_rating
  rw [hf]

/-- Witness for C6: recomputing the rating of the absent product 5
leaves the state untouched. -/
theorem update_product_rating_missing_product_noop_witness :
    update_product_rating cexState 5 = cexState :=
  update_product_rating_missing_product_noop cexState 5 (by decide)

/-- Claim C7: product 1 starts at rating 0; after buyer 10 posts grade 4
the rating is 4; after buyer 11 posts grade 5 it is 9/2 = 4.5; after an
admin deletes the first review it is 5. -/
theorem rating_scenario :
    ratingOf prodOnlyState 1 = some 0 ∧
    (runOps prodOnlyState [Op.create 10 1 "good" 4]).bind (fun s => ratingOf s 1) = some 4 ∧
    (runOps prodOnlyState [Op.create 10 1 "good" 4, Op.create 11 1 "great" 5]).bind
      (fun s => ratingOf s 1) = some (mkRat 9 2) ∧
    (mkRat 9 2 : Rat) = 4.5 ∧
    (runOps prodOnlyState scenarioOps).bind (fun s => ratingOf s 1) = some 5 :=
  ⟨by decide, by decide, by decide, by norm_num, by decide⟩

/-- Claim C8: the true-to-false transition of Review.is_active is
terminal: a successful create or delete keeps every already-inactive
review row exactly as it is (same position, same fields), and the
rating recomputation never touches the review table at all. -/
theorem is_active_false_terminal :
    (∀ (s : DbState) (op : Op) (s' : DbState), applyOp s op = some s' →
      ∀ (i : Nat) (h : i < s.reviews.length),
        (s.reviews.get ⟨i, h⟩).is_active = false →
        ∃ h2 : i < s'.reviews.length, s'.reviews.get ⟨i, h2⟩ = s.reviews.get ⟨i, h⟩) ∧
    ∀ (s : DbState) (pid : Nat), (update_product_rating s pid).reviews = s.reviews := by
  constructor
  · intro s op s' hop i h hia
    cases op with
    | create uid pid c g =>
      obtain ⟨r, hc⟩ := applyOp_create_inv s uid pid c g s' hop
      obtain ⟨hfind, hr, hs'⟩ := create_review_ok_inv s uid pid c g r s' hc
      subst hs'
      rw [upr_reviews]
      have h2 : i < (s.reviews ++ [Review.mk s.nextReviewId uid pid c g true]).length := by
        rw [List.length_append]
        omega
      refine ⟨h2, ?_⟩
      simp [List.getElem_append_left, h]
    | delete rid =>
      obtain ⟨m, hc⟩ := applyOp_delete_inv s rid s' hop
      obtain ⟨review, hfind, hs'⟩ := delete_review_ok_inv s rid m s' hc
      subst hs'
      rw [upr_reviews]
      have h2 : i < ((s.reviews.map fun x =>
          if x.id == rid then { x with is_active := false } else x)).length := by
        rw [List.length_map]
        exact h
      refine ⟨h2, ?_⟩
      have hget : ((s.reviews.map fun x =>
          if x.id == rid then { x with is_active := false } else x)).get ⟨i, h2⟩ =
          (fun x => if x.id == rid then { x with is_active := false } else x)
            (s.reviews.get ⟨i, h⟩) := by
        simp
      rw [hget]
      dsimp only
      by_cases hxid : (s.reviews.get ⟨i, h⟩).id = rid
      · rw [deactivate_eq rid _ hxid]
        exact set_inactive_self _ hia
      · exact deactivate_ne rid _ hxid
  · exact fun s pid => upr_reviews s pid

/-- Witness for C8: a successful create on a state holding an inactive
review leaves that review row in place, unchanged. -/
theorem is_active_false_terminal_witness :
    applyOp inactiveReviewState (Op.create 8 1 "y" 3) = some createResult ∧
    ∃ (h : 0 < inactiveReviewState.reviews.length) (h2 : 0 < createResult.reviews.length),
      createResult.reviews.get ⟨0, h2⟩ = inactiveReviewState.reviews.get ⟨0, h⟩ :=
  ⟨by decide, by decide,
    is_active_false_terminal.1 inactiveReviewState (Op.create 8 1 "y" 3) createResult
      (by decide) 0 (by decide) (by decide)⟩

/-- Claim C9: get_all_reviews returns exactly the active review rows -
a row is in the result precisely when it is in the review table with
is_active = true, irrespective of the state of its product. -/
theorem get_all_reviews_mem_iff (s : DbState) (r : Review) :
    r ∈ get_all_reviews s ↔ r ∈ s.reviews ∧ r.is_active = true := by
  simp [get_all_reviews, List.mem_filter]

/-- Claim C10: whenever create_review fails (NotFound or Conflict), the
state it leaves behind is exactly the input state: no review inserted,
no rating changed. -/
theorem create_review_error_atomicity (s : DbState) (uid pid : Nat) (c : String) (g : Int)
    (e : ApiError) (h : (create_review s uid pid c g).1 = Except.error e) :
    (create_review s uid pid c g).2 = s := by
  unfold create_review at h ⊢
  cases hp : s.products.find? (fun p => p.id == pid && p.is_active) with
  | none => rfl
  | some p0 =>
    cases hr : s.reviews.find? (fun x => x.user_id == uid && x.product_id == pid && x.is_active) with
    | some x => rfl
    | none =>
      rw [hp, hr] at h
      simp at h

/-- Witness for C10: the failed create on `cexState` (inactive product)
returns the state unchanged. -/
theorem create_review_error_atomicity_witness :
    (create_review cexState 7 1 "x" 4).2 = cexState :=
  create_review_error_atomicity cexState 7 1 "x" 4 ApiError.notFound (by decide)

end ECommerce
